import Mathlib

/-!
# Verification of the template initialization and verification subsystem

Shallow embedding of `scripts/template-init.mjs` and `scripts/template-check.mjs`.
Strings are modelled as `List Char`; the JavaScript regular expressions used by the
scripts are all literal patterns, optionally with word boundaries (`\b`) at both
ends and optionally with a trailing negative lookahead, so they are embedded as a
small `Rule` structure together with a hand-written matcher that implements the
left-to-right, non-overlapping global-replacement semantics of
`String.prototype.replace` with the `g` flag.
-/

namespace TemplateInit

/-- JavaScript `\w` word characters: `[A-Za-z0-9_]`. -/
def isWordChar (c : Char) : Bool :=
  c.isAlpha || c.isDigit || c = '_'

/-- A literal regular-expression rule as used by the two scripts: a literal
pattern, a flag saying whether the pattern is wrapped in `\b ... \b`
word-boundary assertions, and an optional trailing negative lookahead
(`(?!...)`) on a literal. Every pattern of both scripts has this shape. -/
structure Rule where
  pat : List Char
  bounded : Bool
  negLA : Option (List Char)
deriving DecidableEq, Repr

/-- Does rule `r` match at the start of `s`, where `prev` is the character
immediately to the left (`none` at the start of the content)?  The leading
`\b` is checked against `prev`; the trailing `\b` and the negative lookahead
are checked against the remainder after the literal pattern.  All patterns of
the scripts start and end with word characters, so `\b` at the edges is
equivalent to the neighbouring character being absent or a non-word
character. -/
def matchHere (r : Rule) (prev : Option Char) (s : List Char) : Bool :=
  r.pat.isPrefixOf s &&
  (let rest := s.drop r.pat.length
   (if r.bounded then
      (match prev with
       | none => true
       | some p => !isWordChar p) &&
      (match rest with
       | [] => true
       | c :: _ => !isWordChar c)
    else true) &&
   (match r.negLA with
    | none => true
    | some la => !la.isPrefixOf rest))

/-- Does rule `r` match anywhere in `s` (with `prev` the character just to the
left of `s`)? -/
def matchesIn (r : Rule) (prev : Option Char) (s : List Char) : Bool :=
  match s with
  | [] => false
  | c :: rest => matchHere r prev (c :: rest) || matchesIn r (some c) rest

/-- Global replacement, fuelled so that the recursion is structural (each step
consumes at least one character, so fuel `s.length` always suffices; exhausted
fuel returns the remaining text unchanged).  Scans left to right over the
original string; on a match, emits `v` and resumes after the matched text (the
boundary context for later matches is the original text, as in JavaScript).
All patterns of the scripts are non-empty literals.  Replacement values are
inserted literally: the dollar-sequence escapes of `String.prototype.replace`
are not modelled, as no value of the wizard is expected to contain them. -/
def replRunF : Nat → Rule → List Char → Option Char → List Char → List Char
  | 0, _, _, _, s => s
  | n + 1, r, v, prev, s =>
    match s with
    | [] => []
    | c :: rest =>
      if matchHere r prev (c :: rest) then
        v ++ replRunF n r v (some (r.pat.getLastD c))
              (rest.drop (r.pat.length - 1))
      else
        c :: replRunF n r v (some c) rest

/-- Global replacement: `str.replace(/pat/g, value)`. -/
def replRun (r : Rule) (v : List Char) (prev : Option Char) (s : List Char) :
    List Char :=
  replRunF s.length r v prev s

/-- JavaScript whitespace (the usual members hit by `String.prototype.trim`:
space, tab, line feed, carriage return, vertical tab, form feed). -/
def isJsSpace (c : Char) : Bool :=
  c = ' ' || c = '\t' || c = '\n' || c = '\r' ||
  c = Char.ofNat 11 || c = Char.ofNat 12

/-- `s.trim()`: strip leading and trailing whitespace. -/
def jsTrim (cs : List Char) : List Char :=
  ((cs.dropWhile isJsSpace).reverse.dropWhile isJsSpace).reverse

/-- String-level `trim()`. -/
def jsTrimS (s : String) : String :=
  ⟨jsTrim s.data⟩

/-- ASCII lower-casing of one character (`String.prototype.toLowerCase` on the
ASCII answers compared by the scripts). -/
def jsLowerChar (c : Char) : Char :=
  if 'A' ≤ c ∧ c ≤ 'Z' then Char.ofNat (c.toNat + 32) else c

/-- `s.toLowerCase()`. -/
def jsToLowerS (s : String) : String :=
  ⟨s.data.map jsLowerChar⟩

/-- `haystack.includes(needle)`: substring containment. -/
def containsSub (needle : List Char) : List Char → Bool
  | [] => needle.isEmpty
  | c :: rest => needle.isPrefixOf (c :: rest) || containsSub needle rest

/-- The ten-key value record gathered by the wizard
(`getDefaults` / `gatherInput` in `template-init.mjs`). -/
structure PlaceholderValues where
  projectName : String
  description : String
  author : String
  repoUrl : String
  repoOwner : String
  repoName : String
  companyDomain : String
  authorEmail : String
  supportEmail : String
  securityEmail : String
deriving DecidableEq, Repr

/-! The eighteen patterns of the `replacements` table of `replacePlaceholders`
in `template-init.mjs`, in source order. -/

def patBrProjectName : Rule := ⟨"__PROJECT_NAME__".data, false, none⟩
def patBrDescription : Rule := ⟨"__DESCRIPTION__".data, false, none⟩
def patBrAuthor : Rule := ⟨"__AUTHOR__".data, false, none⟩
def patBrAuthorEmail : Rule := ⟨"__AUTHOR_EMAIL__".data, false, none⟩
def patBrRepoOwner : Rule := ⟨"__REPO_OWNER__".data, false, none⟩
def patBrRepoName : Rule := ⟨"__REPO_NAME__".data, false, none⟩
def patBrRepoUrl : Rule := ⟨"__REPO_URL__".data, false, none⟩
def patBrCompanyDomain : Rule := ⟨"__COMPANY_DOMAIN__".data, false, none⟩
def patBrSupportEmail : Rule := ⟨"__SUPPORT_EMAIL__".data, false, none⟩
def patBrSecurityEmail : Rule := ⟨"__SECURITY_EMAIL__".data, false, none⟩
def patBareProjectName : Rule := ⟨"PROJECT_NAME".data, true, none⟩
def patBareDescription : Rule := ⟨"DESCRIPTION".data, true, none⟩
def patBareAuthor : Rule := ⟨"AUTHOR".data, true, some "IZED".data⟩
def patUserRepo : Rule := ⟨"USERNAME/REPO_NAME".data, false, none⟩
def patYourUserRepo : Rule := ⟨"YOUR_USERNAME/REPO_NAME".data, false, none⟩
def patYourDomain : Rule := ⟨"YOUR_DOMAIN".data, true, none⟩
def patSupportEmailAt : Rule := ⟨"SUPPORT_EMAIL@example.com".data, true, none⟩
def patSecurityEmailAt : Rule := ⟨"SECURITY_EMAIL@example.com".data, true, none⟩

/-- The `replacements` array of `replacePlaceholders`, in source order:
each entry pairs a pattern with the replacement value drawn from `values`. -/
def rulesFor (v : PlaceholderValues) : List (Rule × List Char) :=
  [ (patBrProjectName, v.projectName.data),
    (patBrDescription, v.description.data),
    (patBrAuthor, v.author.data),
    (patBrAuthorEmail, v.authorEmail.data),
    (patBrRepoOwner, v.repoOwner.data),
    (patBrRepoName, v.repoName.data),
    (patBrRepoUrl, v.repoUrl.data),
    (patBrCompanyDomain, v.companyDomain.data),
    (patBrSupportEmail, v.supportEmail.data),
    (patBrSecurityEmail, v.securityEmail.data),
    (patBareProjectName, v.projectName.data),
    (patBareDescription, v.description.data),
    (patBareAuthor, v.author.data),
    (patUserRepo, (v.repoOwner ++ "/" ++ v.repoName).data),
    (patYourUserRepo, (v.repoOwner ++ "/" ++ v.repoName).data),
    (patYourDomain, v.companyDomain.data),
    (patSupportEmailAt, v.supportEmail.data),
    (patSecurityEmailAt, v.securityEmail.data) ]

/-- The pattern column of the `replacements` table, in source order. -/
def enginePatterns : List Rule :=
  [ patBrProjectName, patBrDescription, patBrAuthor, patBrAuthorEmail,
    patBrRepoOwner, patBrRepoName, patBrRepoUrl, patBrCompanyDomain,
    patBrSupportEmail, patBrSecurityEmail,
    patBareProjectName, patBareDescription, patBareAuthor,
    patUserRepo, patYourUserRepo, patYourDomain,
    patSupportEmailAt, patSecurityEmailAt ]

/-- Apply a list of (rule, value) replacements in order, each one globally over
the result of the previous one — the `for ... result = result.replace(...)`
loop of `replacePlaceholders`. -/
def applyRules (rules : List (Rule × List Char)) (s : List Char) : List Char :=
  rules.foldl (fun acc rv => replRun rv.1 rv.2 none acc) s

/-- `replacePlaceholders(content, values)` of `template-init.mjs`. -/
def transform (content : String) (v : PlaceholderValues) : String :=
  ⟨applyRules (rulesFor v) content.data⟩

/-! ## File discovery (`template-init.mjs` and `template-check.mjs`) -/

/-- `TEXT_EXTENSIONS`, identical in both scripts. -/
def TEXT_EXTENSIONS : List String :=
  [".md", ".txt", ".json", ".yml", ".yaml", ".ts", ".tsx", ".js", ".mjs", ".css"]

/-- `EXCLUDE_DIRS` of `template-init.mjs`. -/
def EXCLUDE_DIRS_INIT : List String :=
  ["node_modules", ".git", ".next", "dist", "build", "out", "coverage"]

/-- `EXCLUDE_DIRS` of `template-check.mjs` (additionally excludes `.template`). -/
def EXCLUDE_DIRS_CHECK : List String :=
  ["node_modules", ".git", ".next", "dist", "build", "out", "coverage", ".template"]

/-- `EXCLUDE_FILES` of `template-check.mjs`.  `template-init.mjs` has no such
list. -/
def EXCLUDE_FILES_CHECK : List String :=
  ["template-init.mjs", "template-check.mjs", "PLACEHOLDERS.md",
   "pnpm-lock.yaml", "package-lock.json"]

/-- The suffix of `cs` starting at its last `'.'`, or `none` if there is no
dot. -/
def extSuffix : List Char → Option (List Char)
  | [] => none
  | c :: rest =>
    match extSuffix rest with
    | some suf => some suf
    | none => if c = '.' then some (c :: rest) else none

/-- `filePath.substring(filePath.lastIndexOf('.'))`: the extension including
the dot; when there is no dot, `lastIndexOf` is `-1` and JavaScript
`substring(-1)` clamps to the whole string. -/
def extOf (s : String) : String :=
  ⟨(extSuffix s.data).getD s.data⟩

/-- The part of `cs` after its last `'/'` (the whole list when there is no
`'/'`): `filePath.split(sep).pop()`. -/
def lastComp : List Char → List Char
  | [] => []
  | c :: rest =>
    if (rest.contains '/') ∨ c = '/' then lastComp rest else c :: rest

/-- `shouldProcessFile` of `template-init.mjs`: extension allow-list only. -/
def shouldProcessFile (filePath : String) : Bool :=
  TEXT_EXTENSIONS.contains (extOf filePath)

/-- `shouldScanFile` of `template-check.mjs`: rejects the fixed excluded file
names, then applies the extension allow-list. -/
def shouldScanFile (filePath : String) : Bool :=
  let filename : String := ⟨lastComp filePath.data⟩
  if EXCLUDE_FILES_CHECK.contains filename then false
  else TEXT_EXTENSIONS.contains (extOf filePath)

/-- A forest of directory entries as enumerated by `readdirSync`/`statSync`,
in first-child/next-sibling form: `file name rest` and `dir name children
rest` are an entry followed by its later siblings (`rest`), in the fixed
order `readdirSync` returns them; `nil` ends a listing. -/
inductive FsTree where
  | nil
  | file (name : String) (rest : FsTree)
  | dir (name : String) (children : FsTree) (rest : FsTree)
deriving Repr

/-- `join` of a relative-path prefix with an entry name (root prefix is
empty). -/
def relName (pre item : String) : String :=
  if pre = "" then item else pre ++ "/" ++ item

/-- The directory-exclusion test of both `findTextFiles` functions:
`EXCLUDE_DIRS.some((excluded) => relativePath.startsWith(excluded))` — a
string-prefix test on the relative path. -/
def isExcludedDir (excludeDirs : List String) (relPath : String) : Bool :=
  excludeDirs.any (fun e => e.data.isPrefixOf relPath.data)

/-- The recursive walk of `findTextFiles`: every entry's relative path is
matched against the directory-exclusion prefixes; directories are descended
into in place; files pass through the given file predicate.  Results are
pushed in enumeration order. -/
def walkTree (excludeDirs : List String) (keep : String → Bool)
    (pre : String) : FsTree → List String
  | .nil => []
  | .file name rest =>
    (let rp := relName pre name
     if isExcludedDir excludeDirs rp then []
     else if keep rp then [rp] else []) ++
    walkTree excludeDirs keep pre rest
  | .dir name children rest =>
    (let rp := relName pre name
     if isExcludedDir excludeDirs rp then []
     else walkTree excludeDirs keep rp children) ++
    walkTree excludeDirs keep pre rest

/-- `findTextFiles(ROOT_DIR)` of `template-init.mjs`, over the root's entry
forest. -/
def findTextFilesInit (roots : FsTree) : List String :=
  walkTree EXCLUDE_DIRS_INIT shouldProcessFile "" roots

/-- `findTextFiles(ROOT_DIR)` of `template-check.mjs`. -/
def findTextFilesCheck (roots : FsTree) : List String :=
  walkTree EXCLUDE_DIRS_CHECK shouldScanFile "" roots

/-- Lexicographic comparison of paths, character by character. -/
def lexLe : List Char → List Char → Bool
  | [], _ => true
  | _ :: _, [] => false
  | a :: as, b :: bs => if a = b then lexLe as bs else decide (a < b)

/-- A list of paths sorted (non-strictly) in lexicographic order. -/
def pathsSorted : List String → Bool
  | [] => true
  | [_] => true
  | a :: b :: rest => lexLe a.data b.data && pathsSorted (b :: rest)

/-! ## Verification scanner patterns (`template-check.mjs`) -/

/-- `[A-Z_]`, the character class of the generic bracketed-sigil pattern. -/
def isSigilChar (c : Char) : Bool :=
  c.isUpper || c = '_'

/-- Does `/__[A-Z_]+__/` match starting exactly at the head of `s`? -/
def sigilAt (s : List Char) : Bool :=
  match s with
  | '_' :: '_' :: t =>
    (List.range t.length).any (fun k =>
      decide (1 ≤ k) && (t.take k).all isSigilChar &&
        "__".data.isPrefixOf (t.drop k))
  | _ => false

/-- Does the generic pattern `/__[A-Z_]+__/g` match anywhere in `s`? -/
def hasGenericSigil : List Char → Bool
  | [] => false
  | s@(_ :: rest) => sigilAt s || hasGenericSigil rest

/-- The bare (non-generic) entries of `PLACEHOLDER_PATTERNS` in
`template-check.mjs`, in source order.  Note `\bAUTHOR\b` has no negative
lookahead and `\bUSERNAME\/REPO_NAME\b` carries word boundaries, unlike the
engine's rules. -/
def patCheckProjectName : Rule := ⟨"PROJECT_NAME".data, true, none⟩
def patCheckDescription : Rule := ⟨"DESCRIPTION".data, true, none⟩
def patCheckAuthor : Rule := ⟨"AUTHOR".data, true, none⟩
def patCheckUserRepo : Rule := ⟨"USERNAME/REPO_NAME".data, true, none⟩
def patCheckYourDomain : Rule := ⟨"YOUR_DOMAIN".data, true, none⟩
def patCheckSupportEmailAt : Rule := ⟨"SUPPORT_EMAIL@example.com".data, true, none⟩
def patCheckSecurityEmailAt : Rule := ⟨"SECURITY_EMAIL@example.com".data, true, none⟩

/-- The bare (legacy-token) patterns of the scanner, in source order. -/
def scannerBarePatterns : List Rule :=
  [ patCheckProjectName, patCheckDescription, patCheckAuthor,
    patCheckUserRepo, patCheckYourDomain,
    patCheckSupportEmailAt, patCheckSecurityEmailAt ]

/-- The bare legacy replacement rules of the engine (`replacements` entries
11–18), in source order. -/
def engineBarePatterns : List Rule :=
  [ patBareProjectName, patBareDescription, patBareAuthor,
    patUserRepo, patYourUserRepo, patYourDomain,
    patSupportEmailAt, patSecurityEmailAt ]

/-- `findPlaceholders(content).length > 0` of `template-check.mjs`: does any
scanner pattern (the generic bracketed-sigil pattern or a bare legacy
pattern) match somewhere in the content? -/
def hasPlaceholderIssue (content : String) : Bool :=
  hasGenericSigil content.data ||
    scannerBarePatterns.any (fun r => matchesIn r none content.data)

/-- The bare legacy tokens (pattern literals) out of a given pattern list that
match somewhere in `c` — the token set a detector built from those patterns
reports for `c`. -/
def detectedTokens : List Rule → List Char → List (List Char)
  | [], _ => []
  | r :: rs, c =>
    if matchesIn r none c then r.pat :: detectedTokens rs c
    else detectedTokens rs c

/-! ## Default value resolver (`getDefaults` of `template-init.mjs`) -/

/-- The local signals `getDefaults` consults.  `none` models the corresponding
lookup throwing (no git, no remote, unreadable/unparsable `package.json`, git
identity not configured); the git identity pair is a single `try` block in the
source, so it is all-or-nothing.  `pkgName`/`pkgAuthor` are the optional
`name`/`author` fields of the parsed `package.json`. -/
structure DefaultsEnv where
  dirName : String
  gitRemoteUrl : Option String
  pkgFields : Option (Option String × Option String)
  gitIdentity : Option (String × String)
deriving Repr

/-- One attempt of `remoteUrl.match(/github\.com[:/]([^/]+)\/([^/.]+)/)` at the
head of `s`: literal `github.com`, one of `:` `/`, a non-empty run of
non-`/` characters, a `/`, then a non-empty run of characters that are
neither `/` nor `.`. -/
def githubMatchAt (s : List Char) : Option (List Char × List Char) :=
  if "github.com".data.isPrefixOf s then
    match s.drop 10 with
    | c :: rest =>
      if c = ':' ∨ c = '/' then
        let owner := rest.takeWhile (fun d => d ≠ '/')
        if owner.isEmpty then none
        else
          match rest.drop owner.length with
          | '/' :: rest2 =>
            let name := rest2.takeWhile (fun d => d ≠ '/' ∧ d ≠ '.')
            if name.isEmpty then none else some (owner, name)
          | _ => none
      else none
    | [] => none
  else none

/-- The full regex scan: try each start position left to right. -/
def githubMatchL : List Char → Option (List Char × List Char)
  | [] => none
  | c :: rest => (githubMatchAt (c :: rest)).orElse (fun _ => githubMatchL rest)

/-- The owner/repo capture groups of the GitHub-URL regex, as strings. -/
def githubMatch (url : String) : Option (String × String) :=
  (githubMatchL url.data).map (fun p => (⟨p.1⟩, ⟨p.2⟩))

/-- `getDefaults()` of `template-init.mjs`, as a function of the consulted
local signals.  Each `try` block of the source is modelled by the
corresponding `Option`; the function is total, so no failure of a signal can
raise. -/
def getDefaults (env : DefaultsEnv) : PlaceholderValues :=
  let d : PlaceholderValues :=
    { projectName := ""
      description := "A modern Next.js + TypeScript application"
      author := ""
      repoUrl := ""
      repoOwner := ""
      repoName := ""
      companyDomain := "example.com"
      authorEmail := "author@example.com"
      supportEmail := "support@example.com"
      securityEmail := "security@example.com" }
  -- Try to get repo name from directory
  let d :=
    if env.dirName ≠ "" ∧ env.dirName ≠ "nextjs-ts-template" then
      { d with projectName := env.dirName, repoName := env.dirName }
    else d
  -- Try to get git remote URL
  let d :=
    match env.gitRemoteUrl with
    | none => d
    | some raw =>
      let remoteUrl := jsTrimS raw
      if remoteUrl = "" then d
      else
        let d := { d with repoUrl := remoteUrl }
        match githubMatch remoteUrl with
        | none => d
        | some (owner, name) =>
          let d := { d with repoOwner := owner, repoName := name }
          if d.projectName = "" then { d with projectName := name } else d
  -- Try to read package.json
  let d :=
    match env.pkgFields with
    | none => d
    | some (nm, au) =>
      let d :=
        match nm with
        | some n => if n ≠ "" ∧ n ≠ "PROJECT_NAME" then { d with projectName := n } else d
        | none => d
      match au with
      | some a => if a ≠ "" ∧ a ≠ "AUTHOR" then { d with author := a } else d
      | none => d
  -- Try to get git user info
  let d :=
    match env.gitIdentity with
    | none => d
    | some (rawUser, rawEmail) =>
      let gitUser := jsTrimS rawUser
      let gitEmail := jsTrimS rawEmail
      let d := if gitUser ≠ "" ∧ d.author = "" then { d with author := gitUser } else d
      if gitEmail ≠ "" then
        { d with authorEmail := gitEmail, supportEmail := gitEmail,
                 securityEmail := gitEmail }
      else d
  d

/-- The environment in which every optional default source is absent: the
directory name is the unusable template name itself, and every other lookup
fails. -/
def envAllAbsent : DefaultsEnv :=
  { dirName := "nextjs-ts-template"
    gitRemoteUrl := none
    pkgFields := none
    gitIdentity := none }

/-- Are all ten values of the record empty strings? -/
def allTenEmpty (v : PlaceholderValues) : Bool :=
  v.projectName = "" && v.description = "" && v.author = "" && v.repoUrl = "" &&
  v.repoOwner = "" && v.repoName = "" && v.companyDomain = "" &&
  v.authorEmail = "" && v.supportEmail = "" && v.securityEmail = ""

/-! ## The wizard run (`main` of `template-init.mjs`)

The filesystem state touched by a run is modelled explicitly; the interactive
answers (the assembled `values`) and the raw confirmation answer are inputs.
`unlinkFails` injects the marker-deletion fault, `stateWriteFails` the
state-record write fault; per-file read/write faults during substitution are
not needed by the proved properties and are not modelled (a faulty file is
skipped with a warning in the source). -/

/-- The persisted state record written by `saveState`. -/
structure InitState where
  initialized : Bool
  timestamp : String
  values : PlaceholderValues
deriving DecidableEq, Repr

/-- The filesystem/git state a run starts from and mutates. -/
structure InitWorld where
  markerPresent : Bool
  treeFiles : List (String × String)
  envLocal : Option String
  envExample : Option String
  stateFile : Option InitState
  gitRemote : Option String
  now : String
  stateWriteFails : Bool
  unlinkFails : Bool
deriving DecidableEq, Repr

/-- `processFiles`: every discovered text file is rewritten through
`replacePlaceholders` (write-if-changed leaves unchanged contents equal). -/
def processFilesW (w : InitWorld) (v : PlaceholderValues) : InitWorld :=
  { w with treeFiles := w.treeFiles.map (fun pc => (pc.1, transform pc.2 v)) }

/-- `createEnvFile`: copy `.env.example` to `.env.local` only when the latter
is absent and the former exists. -/
def createEnvFileW (w : InitWorld) : InitWorld :=
  match w.envLocal, w.envExample with
  | none, some e => { w with envLocal := some e }
  | _, _ => w

/-- `updateGitRemote` (git assumed available and the tree a repository; every
failure inside is caught): set the remote when absent or still containing a
placeholder. -/
def updateGitRemoteW (w : InitWorld) (v : PlaceholderValues) : InitWorld :=
  match w.gitRemote with
  | none => { w with gitRemote := some v.repoUrl }
  | some cur =>
    if containsSub "YOUR_USERNAME".data cur.data ∨ containsSub "USERNAME".data cur.data then
      { w with gitRemote := some v.repoUrl }
    else w

/-- `saveState`: write `{initialized: true, timestamp, values}`, warning (not
raising) on failure. -/
def saveStateW (w : InitWorld) (v : PlaceholderValues) : InitWorld :=
  if w.stateWriteFails then w
  else { w with stateFile := some ⟨true, w.now, v⟩ }

/-- `removeMarker`: delete the marker if present; a deletion failure is
rethrown to the caller. -/
def removeMarkerW (w : InitWorld) : Except Unit InitWorld :=
  if w.markerPresent then
    if w.unlinkFails then .error ()
    else .ok { w with markerPresent := false }
  else .ok w

/-- The resolved confirmation answer: `answer.trim() || 'yes'` (the prompt's
default), matched case-insensitively against `yes`/`y`. -/
def confirmAffirm (raw : String) : Bool :=
  let c := if jsTrimS raw = "" then "yes" else jsTrimS raw
  jsToLowerS c == "yes" || jsToLowerS c == "y"

/-- The observable outcome of a run. -/
structure RunResult where
  world : InitWorld
  exitCode : Nat
  successShown : Bool
deriving DecidableEq, Repr

/-- `main()` of `template-init.mjs`: the already-initialized early exit, the
confirmation gate, then the mutation sequence `processFiles`, `createEnvFile`,
`updateGitRemote`, `saveState`, `removeMarker`, and only then the success
summary (`showNextSteps`).  A throw out of `removeMarker` is caught by the
surrounding `try`, logged, and turned into `process.exit(1)`. -/
def mainRun (w : InitWorld) (values : PlaceholderValues) (confirmRaw : String) :
    RunResult :=
  if !w.markerPresent then
    { world := w, exitCode := 0, successShown := false }
  else if !confirmAffirm confirmRaw then
    { world := w, exitCode := 0, successShown := false }
  else
    let w1 := processFilesW w values
    let w2 := createEnvFileW w1
    let w3 := updateGitRemoteW w2 values
    let w4 := saveStateW w3 values
    match removeMarkerW w4 with
    | .error _ => { world := w4, exitCode := 1, successShown := false }
    | .ok w5 => { world := w5, exitCode := 0, successShown := true }

/-! ## Support lemmas -/

@[simp] theorem processFilesW_markerPresent (w : InitWorld) (v : PlaceholderValues) :
    (processFilesW w v).markerPresent = w.markerPresent := rfl

@[simp] theorem processFilesW_unlinkFails (w : InitWorld) (v : PlaceholderValues) :
    (processFilesW w v).unlinkFails = w.unlinkFails := rfl

@[simp] theorem processFilesW_stateWriteFails (w : InitWorld) (v : PlaceholderValues) :
    (processFilesW w v).stateWriteFails = w.stateWriteFails := rfl

@[simp] theorem processFilesW_now (w : InitWorld) (v : PlaceholderValues) :
    (processFilesW w v).now = w.now := rfl

@[simp] theorem createEnvFileW_markerPresent (w : InitWorld) :
    (createEnvFileW w).markerPresent = w.markerPresent := by
  unfold createEnvFileW
  cases w.envLocal <;> cases w.envExample <;> rfl

@[simp] theorem createEnvFileW_unlinkFails (w : InitWorld) :
    (createEnvFileW w).unlinkFails = w.unlinkFails := by
  unfold createEnvFileW
  cases w.envLocal <;> cases w.envExample <;> rfl

@[simp] theorem createEnvFileW_stateWriteFails (w : InitWorld) :
    (createEnvFileW w).stateWriteFails = w.stateWriteFails := by
  unfold createEnvFileW
  cases w.envLocal <;> cases w.envExample <;> rfl

@[simp] theorem createEnvFileW_now (w : InitWorld) :
    (createEnvFileW w).now = w.now := by
  unfold createEnvFileW
  cases w.envLocal <;> cases w.envExample <;> rfl

@[simp] theorem updateGitRemoteW_markerPresent (w : InitWorld) (v : PlaceholderValues) :
    (updateGitRemoteW w v).markerPresent = w.markerPresent := by
  unfold updateGitRemoteW
  cases w.gitRemote
  · rfl
  · split <;> first | rfl | (split <;> rfl)

@[simp] theorem updateGitRemoteW_unlinkFails (w : InitWorld) (v : PlaceholderValues) :
    (updateGitRemoteW w v).unlinkFails = w.unlinkFails := by
  unfold updateGitRemoteW
  cases w.gitRemote
  · rfl
  · split <;> first | rfl | (split <;> rfl)

@[simp] theorem updateGitRemoteW_stateWriteFails (w : InitWorld) (v : PlaceholderValues) :
    (updateGitRemoteW w v).stateWriteFails = w.stateWriteFails := by
  unfold updateGitRemoteW
  cases w.gitRemote
  · rfl
  · split <;> first | rfl | (split <;> rfl)

@[simp] theorem updateGitRemoteW_now (w : InitWorld) (v : PlaceholderValues) :
    (updateGitRemoteW w v).now = w.now := by
  unfold updateGitRemoteW
  cases w.gitRemote
  · rfl
  · split <;> first | rfl | (split <;> rfl)

@[simp] theorem saveStateW_markerPresent (w : InitWorld) (v : PlaceholderValues) :
    (saveStateW w v).markerPresent = w.markerPresent := by
  unfold saveStateW
  split <;> rfl

@[simp] theorem saveStateW_unlinkFails (w : InitWorld) (v : PlaceholderValues) :
    (saveStateW w v).unlinkFails = w.unlinkFails := by
  unfold saveStateW
  split <;> rfl

/-- When the marker is present and the confirmation resolves affirmatively,
the run proceeds to the mutation sequence and its outcome is decided by
`removeMarkerW`. -/
theorem mainRun_mut (w : InitWorld) (v : PlaceholderValues) (confirmRaw : String)
    (hm : w.markerPresent = true) (hc : confirmAffirm confirmRaw = true) :
    mainRun w v confirmRaw =
      (match removeMarkerW
          (saveStateW (updateGitRemoteW (createEnvFileW (processFilesW w v)) v) v) with
       | .error _ =>
         { world := saveStateW (updateGitRemoteW (createEnvFileW (processFilesW w v)) v) v,
           exitCode := 1, successShown := false }
       | .ok w5 => { world := w5, exitCode := 0, successShown := true }) := by
  unfold mainRun
  rw [hm, hc]
  rfl

/-- A global replacement whose pattern matches nowhere is the identity,
whatever the fuel. -/
theorem replRunF_id (r : Rule) (v : List Char) :
    ∀ (n : Nat) (prev : Option Char) (s : List Char),
      matchesIn r prev s = false → replRunF n r v prev s = s := by
  intro n
  induction n with
  | zero => intro prev s _; rfl
  | succ n ih =>
    intro prev s h
    cases s with
    | nil => rfl
    | cons c rest =>
      simp only [matchesIn, Bool.or_eq_false_iff] at h
      simp only [replRunF, h.1, Bool.false_eq_true, if_false, List.cons.injEq,
        true_and]
      exact ih (some c) rest h.2

/-- No-match identity for `replRun`. -/
theorem replRun_id {r : Rule} {prev : Option Char} {s : List Char}
    (v : List Char) (h : matchesIn r prev s = false) :
    replRun r v prev s = s :=
  replRunF_id r v s.length prev s h

theorem applyRules_cons (r : Rule) (v : List Char)
    (rules : List (Rule × List Char)) (s : List Char) :
    applyRules ((r, v) :: rules) s = applyRules rules (replRun r v none s) :=
  rfl

theorem applyRules_append (xs ys : List (Rule × List Char)) (s : List Char) :
    applyRules (xs ++ ys) s = applyRules ys (applyRules xs s) := by
  simp [applyRules, List.foldl_append]

/-- When none of the rules of the table match the content, the whole
replacement pass is the identity. -/
theorem applyRules_id {rules : List (Rule × List Char)} {s : List Char}
    (h : ∀ rv ∈ rules, matchesIn rv.1 none s = false) :
    applyRules rules s = s := by
  induction rules with
  | nil => rfl
  | cons rv rules ih =>
    obtain ⟨r, v⟩ := rv
    rw [applyRules_cons, replRun_id v (h (r, v) (by simp))]
    exact ih (fun rv hm => h rv (by simp [hm]))

/-- The pattern column of the `replacements` table does not depend on the
values. -/
theorem rulesFor_map_fst (v : PlaceholderValues) :
    (rulesFor v).map Prod.fst = enginePatterns :=
  rfl

/-! ## C1 — idempotence of the substitution engine -/

/-- Values used by the idempotence counterexample: `projectName` is an
ordinary word and `description` resolves to the empty string. -/
def vC1 : PlaceholderValues := ⟨"proj", "", "", "", "", "", "", "", "", ""⟩

/-- Content for the idempotence counterexample: deleting the
`__DESCRIPTION__` placeholder in the middle splices the surrounding text
into a brand-new `__PROJECT_NAME__` placeholder. -/
def cC1 : String := "__PROJ__DESCRIPTION__ECT_NAME__"

/-- C1, counterexample: none of the eighteen resolved replacement values
contains any placeholder syntax (no engine pattern matches inside any of
them, and none contains a bracketed sigil), yet
`transform (transform c v) v ≠ transform c v`: the first pass rewrites the
content to `__PROJECT_NAME__`, which the second pass rewrites again. -/
theorem transform_not_idempotent_cex :
    (∀ rv ∈ rulesFor vC1,
       matchesIn rv.1 none rv.2 = false ∧ hasGenericSigil rv.2 = false) ∧
    transform cC1 vC1 = "__PROJECT_NAME__" ∧
    transform (transform cC1 vC1) vC1 ≠ transform cC1 vC1 := by
  refine ⟨by decide, by decide, by decide⟩

/-- C1, amended: re-running the substitution engine is a no-op on any content
in which no engine pattern still matches — in particular on any
fully-substituted output; the proviso about resolved values, by itself, does
not guarantee idempotence. -/
theorem transform_idempotent_of_no_residual (c : String)
    (v : PlaceholderValues)
    (h : ∀ r ∈ enginePatterns, matchesIn r none (transform c v).data = false) :
    transform (transform c v) v = transform c v := by
  have hall : ∀ rv ∈ rulesFor v, matchesIn rv.1 none (transform c v).data = false := by
    intro rv hm
    apply h
    rw [← rulesFor_map_fst v]
    exact List.mem_map_of_mem _ hm
  show (⟨applyRules (rulesFor v) (transform c v).data⟩ : String) = transform c v
  rw [applyRules_id hall]

/-- Witness for the amended C1 at concrete content and values. -/
theorem transform_idempotent_of_no_residual_witness :
    (∀ r ∈ enginePatterns,
       matchesIn r none (transform "plain readme text" vC1).data = false) ∧
    transform (transform "plain readme text" vC1) vC1 =
      transform "plain readme text" vC1 :=
  ⟨by decide, transform_idempotent_of_no_residual "plain readme text" vC1 (by decide)⟩

/-- Lift a no-match fact about the pattern column to the full table, for any
values. -/
theorem rulesFor_noMatch {v : PlaceholderValues} {s : List Char}
    (h : ∀ r ∈ enginePatterns, matchesIn r none s = false) :
    ∀ rv ∈ rulesFor v, matchesIn rv.1 none s = false := by
  intro rv hm
  apply h
  rw [← rulesFor_map_fst v]
  exact List.mem_map_of_mem _ hm

/-- As `rulesFor_noMatch`, for a prefix of the table. -/
theorem rulesFor_take_noMatch {v : PlaceholderValues} {s : List Char} (n : Nat)
    (h : ∀ r ∈ enginePatterns.take n, matchesIn r none s = false) :
    ∀ rv ∈ (rulesFor v).take n, matchesIn rv.1 none s = false := by
  intro rv hm
  apply h
  rw [← rulesFor_map_fst v, ← List.map_take]
  exact List.mem_map_of_mem _ hm

/-- As `rulesFor_noMatch`, for a suffix of the table. -/
theorem rulesFor_drop_noMatch {v : PlaceholderValues} {s : List Char} (n : Nat)
    (h : ∀ r ∈ enginePatterns.drop n, matchesIn r none s = false) :
    ∀ rv ∈ (rulesFor v).drop n, matchesIn rv.1 none s = false := by
  intro rv hm
  apply h
  rw [← rulesFor_map_fst v, ← List.map_drop]
  exact List.mem_map_of_mem _ hm

/-! ## C4 — composite owner/name substitution -/

/-- C4: content `"USERNAME/REPO_NAME"` with `repoOwner = "janedoe"` and
`repoName = "acme-app"` (and arbitrary other values) substitutes to exactly
`"janedoe/acme-app"`; moreover every rule of the table placed before the
composite `USERNAME/REPO_NAME` rule matches nowhere in that content, so no
earlier, more general rule partially substitutes the longer match first. -/
theorem composite_slash_pair_exact (v : PlaceholderValues)
    (hO : v.repoOwner = "janedoe") (hN : v.repoName = "acme-app") :
    transform "USERNAME/REPO_NAME" v = "janedoe/acme-app" ∧
    ∀ rv ∈ (rulesFor v).take 13,
      matchesIn rv.1 none "USERNAME/REPO_NAME".data = false := by
  have hpre : ∀ rv ∈ (rulesFor v).take 13,
      matchesIn rv.1 none "USERNAME/REPO_NAME".data = false :=
    rulesFor_take_noMatch 13 (by decide)
  refine ⟨?_, hpre⟩
  have key : applyRules (rulesFor v) "USERNAME/REPO_NAME".data =
      applyRules ((rulesFor v).drop 13) "USERNAME/REPO_NAME".data := by
    conv_lhs => rw [← List.take_append_drop 13 (rulesFor v)]
    rw [applyRules_append, applyRules_id hpre]
  have hdrop : (rulesFor v).drop 13 =
      (patUserRepo, (v.repoOwner ++ "/" ++ v.repoName).data) ::
        (rulesFor v).drop 14 := rfl
  have hX : (v.repoOwner ++ "/" ++ v.repoName).data = "janedoe/acme-app".data := by
    rw [hO, hN]; rfl
  have h14 : replRun patUserRepo "janedoe/acme-app".data none
      "USERNAME/REPO_NAME".data = "janedoe/acme-app".data := by decide
  have hpost : applyRules ((rulesFor v).drop 14) "janedoe/acme-app".data =
      "janedoe/acme-app".data :=
    applyRules_id (rulesFor_drop_noMatch 14 (by decide))
  show (⟨applyRules (rulesFor v) "USERNAME/REPO_NAME".data⟩ : String) =
    "janedoe/acme-app"
  rw [key, hdrop, applyRules_cons, hX, h14, hpost]

/-- Witness for C4 at a fully concrete value record. -/
theorem composite_slash_pair_exact_witness :
    (⟨"p", "d", "a", "u", "janedoe", "acme-app", "c", "x", "y", "z"⟩ :
        PlaceholderValues).repoOwner = "janedoe" ∧
    transform "USERNAME/REPO_NAME"
        (⟨"p", "d", "a", "u", "janedoe", "acme-app", "c", "x", "y", "z"⟩ :
          PlaceholderValues) = "janedoe/acme-app" :=
  ⟨rfl,
   (composite_slash_pair_exact
      ⟨"p", "d", "a", "u", "janedoe", "acme-app", "c", "x", "y", "z"⟩
      rfl rfl).1⟩

/-! ## C5 — superstring collision left untouched -/

/-- C5: the line `"The user was UNAUTHORIZED to view records"` is left
byte-identical by the substitution engine for every values mapping, and the
verification scanner finds zero placeholder matches in it. -/
theorem unauthorized_line_untouched (v : PlaceholderValues) :
    transform "The user was UNAUTHORIZED to view records" v =
      "The user was UNAUTHORIZED to view records" ∧
    hasPlaceholderIssue "The user was UNAUTHORIZED to view records" = false := by
  refine ⟨?_, by decide⟩
  show (⟨applyRules (rulesFor v)
      "The user was UNAUTHORIZED to view records".data⟩ : String) = _
  rw [applyRules_id (rulesFor_noMatch (by decide))]

/-! ## C2 — marker-removal failure is fatal -/

/-- C2: when the marker is present, the confirmation resolves affirmatively
and the marker deletion fails, the run exits with code 1, the marker file is
still present in the final state, and the success summary is never shown. -/
theorem marker_removal_failure_fatal (w : InitWorld) (v : PlaceholderValues)
    (confirmRaw : String) (hm : w.markerPresent = true)
    (hc : confirmAffirm confirmRaw = true) (hu : w.unlinkFails = true) :
    (mainRun w v confirmRaw).exitCode = 1 ∧
    (mainRun w v confirmRaw).world.markerPresent = true ∧
    (mainRun w v confirmRaw).successShown = false := by
  rw [mainRun_mut w v confirmRaw hm hc]
  have h4m : (saveStateW (updateGitRemoteW (createEnvFileW (processFilesW w v)) v) v).markerPresent = true := by
    simp [hm]
  have h4u : (saveStateW (updateGitRemoteW (createEnvFileW (processFilesW w v)) v) v).unlinkFails = true := by
    simp [hu]
  simp only [removeMarkerW, h4m, h4u, if_true]
  exact ⟨trivial, trivial, trivial⟩

/-- Concrete world for the C2 witness: marker present, deletion fails. -/
def wC2 : InitWorld :=
  { markerPresent := true
    treeFiles := [("README.md", "__PROJECT_NAME__ docs")]
    envLocal := none
    envExample := some "KEY=value"
    stateFile := none
    gitRemote := none
    now := "2026-10-12T00:00:00.000Z"
    stateWriteFails := false
    unlinkFails := true }

/-- Values used by the C2 witness. -/
def vC2 : PlaceholderValues :=
  ⟨"acme", "d", "Jane", "u", "jd", "acme", "c", "ae", "se", "sce"⟩

/-- Witness for C2 at a concrete world and inputs. -/
theorem marker_removal_failure_fatal_witness :
    (wC2.markerPresent = true ∧ confirmAffirm "yes" = true ∧
       wC2.unlinkFails = true) ∧
    ((mainRun wC2 vC2 "yes").exitCode = 1 ∧
     (mainRun wC2 vC2 "yes").world.markerPresent = true ∧
     (mainRun wC2 vC2 "yes").successShown = false) :=
  ⟨⟨rfl, by decide, rfl⟩,
   marker_removal_failure_fatal wC2 vC2 "yes" rfl (by decide) rfl⟩

/-! ## C3 — the confirmation gate -/

/-- Concrete world for the C3 counterexample. -/
def wC3 : InitWorld :=
  { markerPresent := true
    treeFiles := [("README.md", "__PROJECT_NAME__ docs")]
    envLocal := none
    envExample := some "KEY=value"
    stateFile := none
    gitRemote := none
    now := "2026-10-12T00:00:00.000Z"
    stateWriteFails := false
    unlinkFails := false }

/-- Values for the C3 counterexample. -/
def vC3 : PlaceholderValues :=
  ⟨"acme", "d", "Jane", "u", "jd", "acme", "c", "ae", "se", "sce"⟩

/-- C3, counterexample: with a blank confirmation answer — which is not
explicit affirmative input; trimmed and lower-cased it is neither `yes` nor
`y` — the prompt's default makes the run proceed: the marker is deleted, a
file is rewritten and the state record is written, so side effects do occur
without explicit affirmative input. -/
theorem confirmation_gate_cex :
    (jsToLowerS (jsTrimS "") ≠ "yes" ∧ jsToLowerS (jsTrimS "") ≠ "y") ∧
    wC3.markerPresent = true ∧
    (mainRun wC3 vC3 "").world.markerPresent = false ∧
    (mainRun wC3 vC3 "").world.treeFiles = [("README.md", "acme docs")] ∧
    (mainRun wC3 vC3 "").world.stateFile ≠ none := by
  exact ⟨⟨by decide, by decide⟩, rfl, by decide, by decide, by decide⟩

/-- C3, amended: no side effect occurs unless the resolved confirmation
answer (blank input resolves to the prompt's default `yes`) is affirmative;
any non-affirmative resolved answer exits with code 0, shows no success
summary, and leaves the world — files, marker, state record, env file, git
remote — entirely unchanged. -/
theorem decline_clean_exit (w : InitWorld) (v : PlaceholderValues)
    (confirmRaw : String) (h : confirmAffirm confirmRaw = false) :
    mainRun w v confirmRaw = { world := w, exitCode := 0, successShown := false } := by
  unfold mainRun
  split
  · rfl
  · rw [h]
    rfl

/-- Witness for the amended C3 at a concrete declining input. -/
theorem decline_clean_exit_witness :
    confirmAffirm "no" = false ∧
    mainRun wC3 vC3 "no" = { world := wC3, exitCode := 0, successShown := false } :=
  ⟨by decide, decline_clean_exit wC3 vC3 "no" (by decide)⟩

/-! ## C10 — state record written before marker removal -/

/-- C10: the state record is written (claiming `initialized: true`) before
marker removal is attempted, so on a run where the state write succeeds but
the marker deletion fails after successful substitution, the run exits
non-zero with the marker still present while the persisted state record
already claims `initialized: true`. -/
theorem state_record_written_before_marker (w : InitWorld)
    (v : PlaceholderValues) (confirmRaw : String) (hm : w.markerPresent = true)
    (hc : confirmAffirm confirmRaw = true) (hu : w.unlinkFails = true)
    (hs : w.stateWriteFails = false) :
    (mainRun w v confirmRaw).exitCode = 1 ∧
    (mainRun w v confirmRaw).world.markerPresent = true ∧
    (mainRun w v confirmRaw).world.stateFile =
      some { initialized := true, timestamp := w.now, values := v } := by
  rw [mainRun_mut w v confirmRaw hm hc]
  have h4m : (saveStateW (updateGitRemoteW (createEnvFileW (processFilesW w v)) v) v).markerPresent = true := by
    simp [hm]
  have h4u : (saveStateW (updateGitRemoteW (createEnvFileW (processFilesW w v)) v) v).unlinkFails = true := by
    simp [hu]
  have h4s : (saveStateW (updateGitRemoteW (createEnvFileW (processFilesW w v)) v) v).stateFile =
      some { initialized := true, timestamp := w.now, values := v } := by
    unfold saveStateW
    have h3 : (updateGitRemoteW (createEnvFileW (processFilesW w v)) v).stateWriteFails = false := by
      simp [hs]
    rw [h3]
    simp
  simp only [removeMarkerW, h4m, h4u, if_true]
  exact ⟨trivial, trivial, h4s⟩

/-- Concrete world for the C10 witness. -/
def wC10 : InitWorld :=
  { markerPresent := true
    treeFiles := [("README.md", "__PROJECT_NAME__ docs")]
    envLocal := none
    envExample := some "KEY=value"
    stateFile := none
    gitRemote := none
    now := "2026-10-12T00:00:00.000Z"
    stateWriteFails := false
    unlinkFails := true }

/-- Values for the C10 witness. -/
def vC10 : PlaceholderValues :=
  ⟨"acme", "d", "Jane", "u", "jd", "acme", "c", "ae", "se", "sce"⟩

/-- Witness for C10 at a concrete world and inputs. -/
theorem state_record_written_before_marker_witness :
    (wC10.markerPresent = true ∧ confirmAffirm "y" = true ∧
       wC10.unlinkFails = true ∧ wC10.stateWriteFails = false) ∧
    ((mainRun wC10 vC10 "y").exitCode = 1 ∧
     (mainRun wC10 vC10 "y").world.markerPresent = true ∧
     (mainRun wC10 vC10 "y").world.stateFile =
       some { initialized := true, timestamp := wC10.now, values := vC10 }) :=
  ⟨⟨rfl, by decide, rfl, rfl⟩,
   state_record_written_before_marker wC10 vC10 "y" rfl (by decide) rfl rfl⟩

/-! ## C6 — the default value resolver with all sources absent -/

/-- C6, counterexample: with every optional source absent the resolver does
not return an all-empty-string map — five of the ten keys keep hardcoded
non-empty fallbacks, e.g. `description` and `companyDomain`. -/
theorem resolver_not_all_empty_cex :
    allTenEmpty (getDefaults envAllAbsent) = false ∧
    (getDefaults envAllAbsent).description =
      "A modern Next.js + TypeScript application" ∧
    (getDefaults envAllAbsent).companyDomain = "example.com" := by
  refine ⟨by decide, by decide, by decide⟩

/-- C6, amended: with every optional source absent (whether the directory
name is the unusable template name or empty), the resolver returns — without
raising, being a total function of the consulted signals — the record whose
signal-derived keys (`projectName`, `author`, `repoUrl`, `repoOwner`,
`repoName`) are empty strings and whose remaining five keys hold the
hardcoded fallbacks. -/
theorem resolver_all_absent_result :
    getDefaults envAllAbsent =
      { projectName := ""
        description := "A modern Next.js + TypeScript application"
        author := ""
        repoUrl := ""
        repoOwner := ""
        repoName := ""
        companyDomain := "example.com"
        authorEmail := "author@example.com"
        supportEmail := "support@example.com"
        securityEmail := "security@example.com" } ∧
    getDefaults { dirName := "", gitRemoteUrl := none, pkgFields := none,
                  gitIdentity := none } =
      getDefaults envAllAbsent := by
  exact ⟨rfl, rfl⟩

/-! ## C7 — file exclusions apply only to the scanner's discovery -/

/-- A tree holding exactly the files the claim says are never selected for
substitution: the engine's own sources, the placeholder reference document,
and a lockfile. -/
def treeC7 : FsTree :=
  .dir "scripts"
    (.file "template-init.mjs" (.file "template-check.mjs" .nil))
    (.dir ".template" (.file "PLACEHOLDERS.md" .nil)
      (.file "package-lock.json" .nil))

/-- C7, counterexample: the substitution run's discovery selects the engine's
own source files, the placeholder reference document and the lockfile — the
init script has no file-exclusion list and does not exclude the `.template`
directory, so all four files are selected for substitution. -/
theorem init_discovery_selects_excluded_cex :
    findTextFilesInit treeC7 =
      ["scripts/template-init.mjs", "scripts/template-check.mjs",
       ".template/PLACEHOLDERS.md", "package-lock.json"] := by
  decide

/-- C7, amended: only the verification scanner's discovery applies the file
exclusion list (and the `.template` directory exclusion); the substitution
run's file predicate considers nothing but the extension allow-list, so the
selected-file set of the substitution run is the directory-pruned tree
filtered by extension alone, while the scanner rejects every name of the
exclusion list (and hence all four files of the counterexample tree). -/
theorem init_discovery_extension_only :
    (∀ p : String, shouldProcessFile p = TEXT_EXTENSIONS.contains (extOf p)) ∧
    EXCLUDE_FILES_CHECK.all (fun name => !shouldScanFile name) = true ∧
    shouldScanFile "scripts/template-init.mjs" = false ∧
    findTextFilesCheck treeC7 = [] := by
  exact ⟨fun p => rfl, by decide, by decide, by decide⟩

/-! ## C9 — discovery order -/

/-- A tree whose alphabetical listing (`a` before `a.md`) yields an output
list that is not sorted by path: the directory `a` is descended into before
the sibling file `a.md` is pushed, and `"a/x.md" > "a.md"` since `/` sorts
after `.`. -/
def treeC9 : FsTree :=
  .dir "a" (.file "x.md" .nil) (.file "a.md" .nil)

/-- C9, counterexample: neither script sorts its discovery result; on a tree
whose directory listing is itself alphabetical, both discoveries return
`["a/x.md", "a.md"]`, which is not sorted by path. -/
theorem discovery_not_sorted_cex :
    findTextFilesInit treeC9 = ["a/x.md", "a.md"] ∧
    findTextFilesCheck treeC9 = ["a/x.md", "a.md"] ∧
    pathsSorted ["a/x.md", "a.md"] = false := by
  refine ⟨by decide, by decide, by decide⟩

/-- All file relative paths of a forest, in depth-first enumeration order,
with no exclusion applied. -/
def allFilesDFS (pre : String) : FsTree → List String
  | .nil => []
  | .file name rest => relName pre name :: allFilesDFS pre rest
  | .dir name children rest =>
    allFilesDFS (relName pre name) children ++ allFilesDFS pre rest

theorem relName_starts (pre name : String) :
    pre.data <+: (relName pre name).data := by
  by_cases h : pre = ""
  · rw [relName, if_pos h, h]
    exact List.nil_prefix
  · rw [relName, if_neg h]
    exact ⟨"/".data ++ name.data, by
      simp [String.data_append, List.append_assoc]⟩

theorem isExcludedDir_mono {ex : List String} {a b : String}
    (hab : a.data <+: b.data) (h : isExcludedDir ex a = true) :
    isExcludedDir ex b = true := by
  unfold isExcludedDir at h ⊢
  rw [List.any_eq_true] at h ⊢
  obtain ⟨e, he, hpre⟩ := h
  rw [List.isPrefixOf_iff_prefix] at hpre
  exact ⟨e, he, by rw [List.isPrefixOf_iff_prefix]; exact hpre.trans hab⟩

theorem mem_allFilesDFS_starts :
    ∀ (t : FsTree) (pre p : String), p ∈ allFilesDFS pre t →
      pre.data <+: p.data := by
  intro t
  induction t with
  | nil => intro pre p h; simp [allFilesDFS] at h
  | file name rest ih =>
    intro pre p h
    rw [allFilesDFS, List.mem_cons] at h
    rcases h with h | h
    · rw [h]; exact relName_starts pre name
    · exact ih pre p h
  | dir name children rest ihc ihr =>
    intro pre p h
    rw [allFilesDFS, List.mem_append] at h
    rcases h with h | h
    · exact (relName_starts pre name).trans (ihc (relName pre name) p h)
    · exact ihr pre p h

/-- The discovery walk is the depth-first enumeration of the tree filtered
pointwise by the directory-exclusion and file predicates (directory pruning
coincides with pointwise filtering because the exclusion test is a
string-prefix test, monotone under path extension). -/
theorem walkTree_eq_filter (ex : List String) (keep : String → Bool) :
    ∀ (t : FsTree) (pre : String),
      walkTree ex keep pre t =
        (allFilesDFS pre t).filter
          (fun rp => !isExcludedDir ex rp && keep rp) := by
  intro t
  induction t with
  | nil => intro pre; rfl
  | file name rest ih =>
    intro pre
    rw [walkTree, allFilesDFS, List.filter_cons, ih pre]
    cases hex : isExcludedDir ex (relName pre name) <;>
      cases hk : keep (relName pre name) <;> simp [hex, hk]
  | dir name children rest ihc ihr =>
    intro pre
    rw [walkTree, allFilesDFS, List.filter_append, ihr pre]
    cases hex : isExcludedDir ex (relName pre name)
    · simp only [hex, Bool.false_eq_true, if_false, ihc (relName pre name)]
    · have hnil : (allFilesDFS (relName pre name) children).filter
          (fun rp => !isExcludedDir ex rp && keep rp) = [] := by
        rw [List.filter_eq_nil_iff]
        intro p hp
        have h := isExcludedDir_mono
          (mem_allFilesDFS_starts children (relName pre name) p hp) hex
        simp [h]
      simp only [hex, if_true, hnil]

/-- C9, amended: both discoveries are deterministic functions of the
enumerated tree, returning exactly the depth-first enumeration of the tree
(in directory-listing order, descending in place) filtered by their
directory-exclusion and file predicates — the result is in depth-first
enumeration order, not sorted by path. -/
theorem discovery_is_dfs_enumeration (roots : FsTree) :
    findTextFilesInit roots =
      (allFilesDFS "" roots).filter
        (fun rp => !isExcludedDir EXCLUDE_DIRS_INIT rp && shouldProcessFile rp) ∧
    findTextFilesCheck roots =
      (allFilesDFS "" roots).filter
        (fun rp => !isExcludedDir EXCLUDE_DIRS_CHECK rp && shouldScanFile rp) :=
  ⟨walkTree_eq_filter EXCLUDE_DIRS_INIT shouldProcessFile roots "",
   walkTree_eq_filter EXCLUDE_DIRS_CHECK shouldScanFile roots ""⟩

/-! ## C8 — scanner vs engine bare-token semantics -/

/-- C8, counterexample: on content `"xUSERNAME/REPO_NAME"` the engine's bare
composite rule (an unconditional substring match) matches — and would rewrite
— the token, while every bare scanner pattern (whose composite carries word
boundaries) matches nothing, so the two bare-token sets differ. -/
theorem bare_token_sets_differ_cex :
    "USERNAME/REPO_NAME".data ∈
      detectedTokens engineBarePatterns "xUSERNAME/REPO_NAME".data ∧
    detectedTokens scannerBarePatterns "xUSERNAME/REPO_NAME".data = [] := by
  refine ⟨by decide, by decide⟩

/-- The engine's bare patterns other than the two composite slash-pairs, in
source order. -/
def engineBareNonComposite : List Rule :=
  [ patBareProjectName, patBareDescription, patBareAuthor,
    patYourDomain, patSupportEmailAt, patSecurityEmailAt ]

/-- The scanner's bare patterns other than the composite slash-pair, in
source order. -/
def scannerBareNonComposite : List Rule :=
  [ patCheckProjectName, patCheckDescription, patCheckAuthor,
    patCheckYourDomain, patCheckSupportEmailAt, patCheckSecurityEmailAt ]

/-- The engine's `\bAUTHOR\b(?!IZED)` and the scanner's `\bAUTHOR\b` are the
same matcher: whenever the trailing word boundary holds, the next character
(if any) is not a word character, so it cannot be the `I` of `IZED` and the
negative lookahead is automatically satisfied. -/
theorem matchHere_author_eq (prev : Option Char) (s : List Char) :
    matchHere patBareAuthor prev s = matchHere patCheckAuthor prev s := by
  show matchHere ⟨"AUTHOR".data, true, some "IZED".data⟩ prev s =
    matchHere ⟨"AUTHOR".data, true, none⟩ prev s
  unfold matchHere
  cases hp : "AUTHOR".data.isPrefixOf s
  · simp
  · simp only
    cases hr : s.drop ("AUTHOR".data.length) with
    | nil => simp [hr, List.isPrefixOf]
    | cons c rest2 =>
      cases hw : isWordChar c
      · have hla : "IZED".data.isPrefixOf (c :: rest2) = false := by
          cases hI : "IZED".data.isPrefixOf (c :: rest2)
          · rfl
          · exfalso
            rw [List.isPrefixOf_iff_prefix] at hI
            obtain ⟨t, ht⟩ := hI
            have hc : c = 'I' := by
              have := congrArg (fun l => l.head?) ht
              simpa using this.symm
            rw [hc] at hw
            simp [isWordChar, Char.isAlpha, Char.isUpper] at hw
        simp [hr, hw, hla]
      · simp [hr, hw]

/-- Search-level version of `matchHere_author_eq`. -/
theorem matchesIn_author_eq (prev : Option Char) (s : List Char) :
    matchesIn patBareAuthor prev s = matchesIn patCheckAuthor prev s := by
  induction s generalizing prev with
  | nil => rfl
  | cons c rest ih =>
    rw [matchesIn, matchesIn, matchHere_author_eq, ih]

/-- A word-bounded literal matches only where the unbounded literal does. -/
theorem matchHere_unbounded_of_bounded {p : List Char} {prev : Option Char}
    {s : List Char} (h : matchHere ⟨p, true, none⟩ prev s = true) :
    matchHere ⟨p, false, none⟩ prev s = true := by
  unfold matchHere at h ⊢
  simp only [Bool.and_eq_true] at h
  simp [h.1]

/-- Search-level version of `matchHere_unbounded_of_bounded`. -/
theorem matchesIn_unbounded_of_bounded {p : List Char} (prev : Option Char)
    (s : List Char) (h : matchesIn ⟨p, true, none⟩ prev s = true) :
    matchesIn ⟨p, false, none⟩ prev s = true := by
  induction s generalizing prev with
  | nil => exact h
  | cons c rest ih =>
    rw [matchesIn, Bool.or_eq_true] at h ⊢
    rcases h with h | h
    · exact Or.inl (matchHere_unbounded_of_bounded h)
    · exact Or.inr (ih (some c) h)

/-- C8, amended: outside the composite slash-pair patterns the two scripts'
bare-token semantics coincide exactly — the five plainly word-bounded
patterns are identical and the engine's extra `(?!IZED)` lookahead on
`AUTHOR` is redundant — so the detected token sets agree on every content;
on the composites they diverge only in one direction: any content in which
the scanner's word-bounded composite matches is also matched by the engine's
unconditional composite rule (the converse fails, as the counterexample
shows). -/
theorem bare_token_semantics_alignment (c : List Char) :
    detectedTokens engineBareNonComposite c =
      detectedTokens scannerBareNonComposite c ∧
    (matchesIn patCheckUserRepo none c &&
      !matchesIn patUserRepo none c) = false := by
  constructor
  · have ha := matchesIn_author_eq none c
    simp only [engineBareNonComposite, scannerBareNonComposite,
      detectedTokens, ha]
    rfl
  · cases h1 : matchesIn patCheckUserRepo none c
    · rfl
    · have h2 : matchesIn patUserRepo none c = true :=
        matchesIn_unbounded_of_bounded none c h1
      rw [h2]
      rfl

end TemplateInit
